import Mathlib

/-!
Verification of the chart-customization core: the path grammar and
document patcher of `chart_payloads.py`, the instruction translator of
`chart_instruction_parser.py`, and the update loop of `customize_chart.py`,
shallowly embedded as executable Lean definitions.
-/

set_option maxHeartbeats 1000000

namespace Charts

/-- A JSON-like document node.  Python `None` is `null`; Python floats are
modelled by rationals (the numeric literals handled by the parser are
decimal, hence exactly representable); Python `dict` keeps insertion order
and is modelled by an association list. -/
inductive Node where
  | null : Node
  | bool (b : Bool) : Node
  | int (n : Int) : Node
  | num (q : Rat) : Node
  | str (s : String) : Node
  | seq (l : List Node) : Node
  | map (m : List (String × Node)) : Node

/-- An access token of a path expression: a mapping field or a sequence
index (`tokenize_path` produces `str | int` entries). -/
inductive Tok where
  | field (s : String) : Tok
  | index (i : Nat) : Tok
deriving DecidableEq

/-- Containers in the sense of `MutableMapping`/`MutableSequence`
(`isinstance(x, (MutableMapping, MutableSequence))`). -/
def isContainer : Node → Bool
  | Node.map _ => true
  | Node.seq _ => true
  | _ => false

/-- First-match association-list lookup, the behaviour of `dict.__getitem__`
/ `dict.get` on our ordered-mapping model. -/
def mapGet (m : List (String × Node)) (k : String) : Option Node :=
  match m with
  | [] => none
  | kv :: rest => if kv.1 = k then some kv.2 else mapGet rest k

/-- `dict.__setitem__`: replace the value of an existing key in place,
otherwise append the binding at the end (insertion order). -/
def mapSet (m : List (String × Node)) (k : String) (v : Node) : List (String × Node) :=
  match m with
  | [] => [(k, v)]
  | kv :: rest => if kv.1 = k then (k, v) :: rest else kv :: mapSet rest k v

/-- Python truthiness of a document node (`bool(x)`). -/
def pyTruthy : Node → Bool
  | Node.null => false
  | Node.bool b => b
  | Node.int n => n ≠ 0
  | Node.num q => q ≠ 0
  | Node.str s => s ≠ ""
  | Node.seq l => !l.isEmpty
  | Node.map m => !m.isEmpty

/-- Python `str()` of a node.  Faithful for the scalar shapes the code
actually feeds to it (strings, booleans, `None`, integers); the float and
container renderings are approximations of `repr`, reached only on
documents that store such values as a series `name`. -/
def pyStr : Node → String
  | Node.null => "None"
  | Node.bool b => if b then "True" else "False"
  | Node.int n => toString n
  | Node.num q => toString q
  | Node.str s => s
  | Node.seq _ => "[...]"
  | Node.map _ => "\x7b...\x7d"

-- ---------------------------------------------------------------------------
-- Path Expression Grammar (`tokenize_path`, chart_payloads.py lines 227-259)
-- ---------------------------------------------------------------------------

/-- Value of a non-empty digit string, as `int(index_str)` computes it. -/
def digitsToNat (ds : List Char) : Nat :=
  ds.foldl (fun n c => n * 10 + (c.toNat - 48)) 0

/-- Split a character list at the first `]`, returning the characters
before it and the remainder after it — the effect of
`path.find("]", i)` followed by slicing. -/
def splitAtRBracket : List Char → Option (List Char × List Char)
  | [] => none
  | c :: rest =>
    if c = ']' then some ([], rest)
    else
      match splitAtRBracket rest with
      | none => none
      | some (a, b) => some (c :: a, b)

/-- The pending segment buffer flushed into a field token
(`if buffer: tokens.append(buffer)`). -/
def flushBuf (buf : List Char) : List Tok :=
  if buf.isEmpty then [] else [Tok.field (String.mk buf)]

/-- Character-by-character core of `tokenize_path`.  `path` is carried only
for the error messages, `buf` is the accumulated segment buffer.  The `fuel`
argument makes the recursion structural: the scan consumes at least one
character per step, so any fuel exceeding the character count is enough and
the fuel-exhausted branch is unreachable from `tokenize_path`. -/
def tokAux (path : String) : Nat → List Char → List Char → Except String (List Tok)
  | 0, _, _ => Except.error ("Path scan out of fuel.")
  | _ + 1, [], buf => Except.ok (flushBuf buf)
  | fuel + 1, c :: rest, buf =>
    if c = '.' then
      match tokAux path fuel rest [] with
      | Except.error e => Except.error e
      | Except.ok ts => Except.ok (flushBuf buf ++ ts)
    else if c = '[' then
      match splitAtRBracket rest with
      | none => Except.error ("Unmatched [ in path " ++ path ++ ".")
      | some (inside, after) =>
        if inside.isEmpty || !inside.all Char.isDigit then
          Except.error ("List index must be numeric in path " ++ path ++ ".")
        else
          match tokAux path fuel after [] with
          | Except.error e => Except.error e
          | Except.ok ts => Except.ok (flushBuf buf ++ (Tok.index (digitsToNat inside) :: ts))
    else
      tokAux path fuel rest (buf ++ [c])

/-- `tokenize_path(path)`: fails on the empty string, otherwise scans the
character list with an empty buffer.  Error messages reproduce the source
text except that the quotation marks around interpolated fragments are
dropped. -/
def tokenize_path (path : String) : Except String (List Tok) :=
  if path = "" then Except.error ("Update paths cannot be empty.")
  else tokAux path (path.data.length + 1) path.data []

-- ---------------------------------------------------------------------------
-- Pattern normalization (`_normalize_tokens`, lines 262-272)
-- ---------------------------------------------------------------------------

/-- One step of `_normalize_tokens`.  The accumulator is kept reversed
(head = most recent entry): an integer token appends `[]` to the most
recent entry, or becomes a bare `[]` when the list is empty. -/
def normStep (acc : List String) : Tok → List String
  | Tok.index _ =>
    match acc with
    | [] => ["[]"]
    | h :: t => (h ++ "[]") :: t
  | Tok.field s => s :: acc

/-- Join with `.` separators (`".".join(normalized)`). -/
def joinDots : List String → String
  | [] => ""
  | [s] => s
  | s :: rest => s ++ "." ++ joinDots rest

/-- `_normalize_tokens(tokens)`: collapse index tokens into an `[]` suffix
on the preceding field and join with dots. -/
def normalize_tokens (tokens : List Tok) : String :=
  joinDots (tokens.foldl normStep []).reverse

-- ---------------------------------------------------------------------------
-- Editable-Field Schema (lines 143-224)
-- ---------------------------------------------------------------------------

/-- `GLOBAL_FIELD_TEMPLATES` (path template, description). -/
def GLOBAL_FIELD_TEMPLATES : List (String × String) := [
  ("title.text", "Chart title text"),
  ("title.style.color", "Title font color"),
  ("subtitle.text", "Subtitle text"),
  ("subtitle.style.color", "Subtitle font color"),
  ("chart.backgroundColor", "Chart background color"),
  ("xAxis.title.text", "X-axis title"),
  ("xAxis.labels.style", "X-axis label styles"),
  ("yAxis.title.text", "Y-axis title"),
  ("yAxis.labels.style", "Y-axis label styles"),
  ("legend", "Legend configuration"),
  ("legend.enabled", "Toggle legend visibility"),
  ("plotOptions.series.dataLabels", "Global data label options"),
  ("plotOptions.series.dataLabels.enabled", "Enable global data labels"),
  ("plotOptions.series.dataLabels.style", "Global data label style"),
  ("plotOptions.series.marker.enabled", "Global marker visibility")]

/-- `SERIES_FIELD_TEMPLATES`. -/
def SERIES_FIELD_TEMPLATES : List (String × String) := [
  ("series[\x7bindex\x7d].name", "Series display name"),
  ("series[\x7bindex\x7d].color", "Series color"),
  ("series[\x7bindex\x7d].dashStyle", "Series line/dash style"),
  ("series[\x7bindex\x7d].lineWidth", "Series line width"),
  ("series[\x7bindex\x7d].dataLabels.enabled", "Enable series data labels"),
  ("series[\x7bindex\x7d].dataLabels.format", "Series data label format"),
  ("series[\x7bindex\x7d].dataLabels.style", "Series data label style"),
  ("series[\x7bindex\x7d].marker.enabled", "Series marker visibility"),
  ("series[\x7bindex\x7d].marker.symbol", "Series marker symbol"),
  ("series[\x7bindex\x7d].marker.radius", "Series marker radius")]

/-- `CHART_TYPE_FIELD_TEMPLATES`, keyed by chart kind. -/
def CHART_TYPE_FIELD_TEMPLATES : List (String × List (String × String)) := [
  ("column", [
    ("plotOptions.column.colorByPoint", "Color each column by point"),
    ("plotOptions.column.dataLabels.enabled", "Enable column data labels"),
    ("plotOptions.column.dataLabels.style.fontSize", "Column data label font size"),
    ("plotOptions.column.borderRadius", "Column border radius")]),
  ("bar", [
    ("plotOptions.bar.dataLabels.enabled", "Enable bar data labels"),
    ("plotOptions.bar.dataLabels.style.fontSize", "Bar data label font size"),
    ("plotOptions.bar.borderRadius", "Bar border radius")]),
  ("area", [
    ("plotOptions.area.fillOpacity", "Area fill opacity"),
    ("plotOptions.area.marker.enabled", "Area marker visibility")]),
  ("areaspline", [
    ("plotOptions.areaspline.fillOpacity", "Areaspline fill opacity"),
    ("plotOptions.areaspline.marker.enabled", "Areaspline marker visibility")]),
  ("line", [
    ("plotOptions.line.marker.enabled", "Line marker visibility")]),
  ("spline", [
    ("plotOptions.spline.marker.enabled", "Spline marker visibility")]),
  ("pie", [
    ("plotOptions.pie.dataLabels.enabled", "Pie data label toggle"),
    ("plotOptions.pie.dataLabels.distance", "Pie data label distance"),
    ("plotOptions.pie.innerSize", "Pie inner size (donut)"),
    ("plotOptions.pie.showInLegend", "Show pie slices in legend")]),
  ("scatter", [
    ("plotOptions.scatter.marker.symbol", "Scatter marker symbol"),
    ("plotOptions.scatter.marker.radius", "Scatter marker radius"),
    ("plotOptions.scatter.marker.fillColor", "Scatter marker fill color")]),
  ("bubble", [
    ("plotOptions.bubble.minSize", "Bubble min size"),
    ("plotOptions.bubble.maxSize", "Bubble max size")])]

/-- The `template.replace("[{index}]", "[]")` substitution, spelled out on
the character list (the marker is `[{index}]`). -/
def replaceIndexMarker : List Char → List Char
  | '[' :: '\x7b' :: 'i' :: 'n' :: 'd' :: 'e' :: 'x' :: '\x7d' :: ']' :: rest =>
    '[' :: ']' :: replaceIndexMarker rest
  | c :: rest => c :: replaceIndexMarker rest
  | [] => []

/-- Path pattern of one template entry. -/
def patternOfTemplate (t : String × String) : String :=
  String.mk (replaceIndexMarker t.1.data)

/-- The kind-specific tier: non-empty string chart types that are known
keys contribute their patterns (non-string nodes are never keys of
`CHART_TYPE_FIELD_TEMPLATES` and falsy values are skipped, so every other
node contributes nothing). -/
def chart_kind_patterns : Option Node → List String
  | some (Node.str s) =>
    if s = "" then []
    else
      match CHART_TYPE_FIELD_TEMPLATES.find? (fun kv => kv.1 = s) with
      | some kv => kv.2.map patternOfTemplate
      | none => []
  | _ => []

/-- `_allowed_path_patterns_for_chart(chart_type)`: global plus per-series
patterns, plus the kind-specific patterns. -/
def allowed_path_patterns_for_chart (chart_type : Option Node) : List String :=
  GLOBAL_FIELD_TEMPLATES.map patternOfTemplate
    ++ SERIES_FIELD_TEMPLATES.map patternOfTemplate
    ++ chart_kind_patterns chart_type

/-- Rendering of the chart type used in the rejection message
(`chart_type or 'generic'`). -/
def chartTypeLabel (chart_type : Option Node) : String :=
  match chart_type with
  | some n => if pyTruthy n then pyStr n else "generic"
  | none => "generic"

/-- `validate_update_path(tokens, chart_type)`: membership of the
normalized pattern in the allow-list, error otherwise (the message drops
the quotation marks the source puts around the pattern and kind). -/
def validate_update_path (tokens : List Tok) (chart_type : Option Node) :
    Except String Unit :=
  let pattern := normalize_tokens tokens
  if pattern ∈ allowed_path_patterns_for_chart chart_type then Except.ok ()
  else
    Except.error ("Path " ++ pattern ++ " is not editable for chart type "
      ++ chartTypeLabel chart_type ++ ".")

-- ---------------------------------------------------------------------------
-- Document Patcher (`get_nested_value` / `_ensure_sequence` /
-- `set_nested_value`, lines 282-335)
-- ---------------------------------------------------------------------------

/-- `get_nested_value(container, tokens)`.  Missing data yields `null`
(Python returns `None`).  Python strings are `Sequence`s, so an index token
on a string node yields the one-character string, exactly as
`current[token]` would. -/
def get_nested_value (container : Node) : List Tok → Node
  | [] => container
  | Tok.index i :: rest =>
    match container with
    | Node.seq l =>
      match l[i]? with
      | some c => get_nested_value c rest
      | none => Node.null
    | Node.str s =>
      match s.data[i]? with
      | some c => get_nested_value (Node.str (String.mk [c])) rest
      | none => Node.null
    | _ => Node.null
  | Tok.field k :: rest =>
    match container with
    | Node.map m =>
      match mapGet m k with
      | some v => get_nested_value v rest
      | none => Node.null
    | _ => Node.null

/-- The empty container matching a token kind
(`{} if isinstance(next_token, str) else []`). -/
def emptyFor : Tok → Node
  | Tok.field _ => Node.map []
  | Tok.index _ => Node.seq []

/-- `_ensure_sequence(container, index, next_token)`: pad the list with
empty containers of the next token kind up to `index`, then replace the
element at `index` when it is not a container of that kind.  Returns the
updated list together with the element the walk continues into. -/
def ensure_sequence (l : List Node) (i : Nat) (next_token : Tok) :
    List Node × Node :=
  let padded := l ++ List.replicate (i + 1 - l.length) (emptyFor next_token)
  let cur := padded.getD i Node.null
  let fixed :=
    match next_token, cur with
    | Tok.field _, Node.map m => Node.map m
    | Tok.field _, _ => Node.map []
    | Tok.index _, Node.seq s => Node.seq s
    | Tok.index _, _ => Node.seq []
  (padded.set i fixed, fixed)

/-- `set_nested_value(container, tokens, value)`.  The Python function
mutates in place and returns the previous value; here the updated document
is returned alongside it.  An index token on a non-list raises, a field
token on a non-dict raises; an intermediate field that is absent or not a
container is replaced by a fresh container of the next token's kind (a
container of the wrong kind is kept as-is).  Error messages drop the
quotation marks the source puts around the offending segment. -/
def set_nested_value (container : Node) (tokens : List Tok) (value : Node) :
    Except String (Node × Node) :=
  match tokens with
  | [] => Except.ok (container, Node.null)
  | Tok.index i :: rest =>
    match container with
    | Node.seq l =>
      match rest with
      | [] =>
        let padded := l ++ List.replicate (i + 1 - l.length) Node.null
        Except.ok (Node.seq (padded.set i value), padded.getD i Node.null)
      | next :: _ =>
        let step := ensure_sequence l i next
        match set_nested_value step.2 rest value with
        | Except.error e => Except.error e
        | Except.ok (target2, prev) =>
          Except.ok (Node.seq (step.1.set i target2), prev)
    | _ =>
      Except.error ("Expected list while updating path segment "
        ++ toString i ++ ".")
  | Tok.field k :: rest =>
    match container with
    | Node.map m =>
      match rest with
      | [] =>
        Except.ok (Node.map (mapSet m k value), (mapGet m k).getD Node.null)
      | next :: _ =>
        let child :=
          match mapGet m k with
          | some c => if isContainer c then c else emptyFor next
          | none => emptyFor next
        match set_nested_value child rest value with
        | Except.error e => Except.error e
        | Except.ok (child2, prev) =>
          Except.ok (Node.map (mapSet m k child2), prev)
    | _ =>
      Except.error ("Expected mapping while updating path segment "
        ++ k ++ ".")

-- ---------------------------------------------------------------------------
-- Instruction Translator (chart_instruction_parser.py)
-- ---------------------------------------------------------------------------

/-- Python `\s` (ASCII): space, tab, newline, carriage return, form feed,
vertical tab. -/
def pyWs (c : Char) : Bool :=
  c = ' ' || c = '\t' || c = '\n' || c = '\x0d' || c = '\x0c' || c = '\x0b'

/-- Regex `\w` (ASCII): letters, digits, underscore. -/
def isWordChar (c : Char) : Bool := c.isAlphanum || c = '_'

/-- `str.lower()` (ASCII). -/
def strLower (s : String) : String := String.mk (s.data.map Char.toLower)

/-- `str.upper()` (ASCII). -/
def strUpper (s : String) : String := String.mk (s.data.map Char.toUpper)

/-- Case-insensitive literal prefix match: `pat` is given lowercase; on
success the remaining characters are returned. -/
def matchPrefixCI : List Char → List Char → Option (List Char)
  | [], s => some s
  | _ :: _, [] => none
  | p :: ps, c :: cs => if c.toLower = p then matchPrefixCI ps cs else none

/-- Case-sensitive literal prefix test. -/
def startsWithChars : List Char → List Char → Bool
  | _, [] => true
  | [], _ :: _ => false
  | c :: cs, p :: ps => c = p && startsWithChars cs ps

/-- Substring containment (`pat in s`), case-sensitive. -/
def containsSub (pat : List Char) : List Char → Bool
  | [] => pat.isEmpty
  | c :: rest => startsWithChars (c :: rest) pat || containsSub pat rest

/-- `sub in s` on strings. -/
def strContains (s sub : String) : Bool := containsSub sub.data s.data

/-- Leftmost-match scan: try the at-position matcher `f` at every suffix,
the way `re.search` tries every start position. -/
def scanFor {α : Type} (f : List Char → Option α) : List Char → Option α
  | [] => f []
  | c :: cs =>
    match f (c :: cs) with
    | some v => some v
    | none => scanFor f cs

/-- First case-insensitive occurrence of `pat`; returns the characters
after it. -/
def findSubCI (pat : List Char) (s : List Char) : Option (List Char) :=
  scanFor (matchPrefixCI pat) s

/-- Word-boundary search `\b w \b` (case-sensitive, `w` made of word
characters): `prevWord` tracks whether the previous character was a word
character. -/
def containsWordAux (w : List Char) : Bool → List Char → Bool
  | _, [] => false
  | prevWord, c :: cs =>
    (!prevWord && startsWithChars (c :: cs) w &&
      (match (c :: cs).drop w.length with
       | [] => true
       | d :: _ => !isWordChar d))
    || containsWordAux w (isWordChar c) cs

/-- `re.search(rf"\b{name}\b", lowered)` as a Bool. -/
def containsWord (lowered : String) (w : String) : Bool :=
  containsWordAux w.data false lowered.data

/-- Parse `\d+(?:\.\d+)?` at the start of `s`: the value (exact, as a
rational) and the number of characters consumed. -/
def numberAt (s : List Char) : Option (Rat × Nat) :=
  let ds := s.takeWhile Char.isDigit
  if ds.isEmpty then none
  else
    let rest := s.drop ds.length
    match rest with
    | '.' :: r2 =>
      let fs := r2.takeWhile Char.isDigit
      if fs.isEmpty then some ((digitsToNat ds : Rat), ds.length)
      else
        some ((digitsToNat ds : Rat) + (digitsToNat fs : Rat) / ((10 : Rat) ^ fs.length),
          ds.length + 1 + fs.length)
    | _ => some ((digitsToNat ds : Rat), ds.length)

/-- `float(...)` then `int(value) if value.is_integer() else value`. -/
def ratToPyNumber (q : Rat) : Node :=
  if q.den = 1 then Node.int q.num else Node.num q

/-- Lazy-gap number search `.*?(\d+(?:\.\d+)?)`: the first digit run after
the current position, fraction included greedily. -/
def firstNumberFrom : List Char → Option Rat
  | [] => none
  | c :: cs => if c.isDigit then (numberAt (c :: cs)).map Prod.fst else firstNumberFrom cs

/-- Lazy-gap search for `(\d+%)`: the first maximal digit run immediately
followed by `%`.  `run` holds the digits read just before the current
position (reversed). -/
def digitsPercentAux (run : List Char) : List Char → Option String
  | [] => none
  | c :: cs =>
    if c.isDigit then digitsPercentAux (c :: run) cs
    else if c = '%' && !run.isEmpty then some (String.mk (run.reverse ++ ['%']))
    else digitsPercentAux [] cs

/-- `.*?(\d+%)` from the current position onwards. -/
def digitsPercentFrom (s : List Char) : Option String := digitsPercentAux [] s

-- Static extractor catalogues (lines 6-94).

/-- `COLOR_NAME_MAP` in insertion order. -/
def COLOR_NAME_MAP : List (String × String) := [
  ("red", "#FF0000"), ("blue", "#1F77B4"), ("green", "#2CA02C"),
  ("orange", "#FF7F0E"), ("purple", "#9467BD"), ("yellow", "#F2C200"),
  ("black", "#000000"), ("white", "#FFFFFF"), ("gray", "#808080"),
  ("grey", "#808080"), ("pink", "#E377C2"), ("teal", "#17BECF")]

/-- `DASH_KEYWORDS`, ordered so multi-word phrases pre-empt substrings. -/
def DASH_KEYWORDS : List (String × String) := [
  ("short dash dot", "ShortDashDot"), ("short dash", "ShortDash"),
  ("long dash", "LongDash"), ("dashdot", "DashDot"), ("dash-dot", "DashDot"),
  ("dotted", "Dot"), ("dot", "Dot"), ("dashed", "Dash"), ("dash", "Dash"),
  ("solid", "Solid")]

/-- `ORDINAL_WORD_MAP`. -/
def ORDINAL_WORD_MAP : List (String × Nat) := [
  ("first", 0), ("second", 1), ("third", 2), ("fourth", 3), ("fifth", 4),
  ("sixth", 5), ("seventh", 6), ("eighth", 7), ("ninth", 8), ("tenth", 9)]

/-- The noun alternatives of `ORDINAL_SERIES_RE`. -/
def SERIES_NOUN_WORDS : List String := ["series", "line", "bar", "column", "area"]

/-- `POSITIVE_BOOL_PHRASES`. -/
def POSITIVE_BOOL_PHRASES : List String :=
  ["enable", "turn on", "turn it on", "show", "display", "activate", "add", "use"]

/-- `NEGATIVE_BOOL_PHRASES`. -/
def NEGATIVE_BOOL_PHRASES : List String :=
  ["disable", "turn off", "turn it off", "hide", "remove", "deactivate", "suppress"]

/-- The keyword alternatives of `LINE_WIDTH_PATTERNS`. -/
def WIDTH_KEYWORDS : List String := ["line width", "linewidth", "thickness", "stroke"]

/-- The keyword alternatives of `RADIUS_RE` / `RADIUS_AFTER_RE`. -/
def RADIUS_KEYWORDS : List String := ["radius", "size"]

/-- `MARKER_SYMBOL_MAP` in insertion order (so plain `triangle` pre-empts
`triangle-down`, as the Python dict iteration does). -/
def MARKER_SYMBOL_MAP : List (String × String) := [
  ("circle", "circle"), ("square", "square"), ("diamond", "diamond"),
  ("triangle", "triangle"), ("triangle-down", "triangle-down"),
  ("triangle down", "triangle-down")]

/-- Hex digit in the sense of `[0-9a-fA-F]`. -/
def isHexDigitChar (c : Char) : Bool :=
  c.isDigit || (97 ≤ c.toNat && c.toNat ≤ 102) || (65 ≤ c.toNat && c.toNat ≤ 70)

/-- `HEX_COLOR_RE` tried at one position.  The regex alternation tries the
three-digit branch first and `re.search` is unanchored, so a longer hex
literal still matches only its first three digits. -/
def hexAt : List Char → Option String
  | '#' :: a :: b :: c :: _ =>
    if isHexDigitChar a && isHexDigitChar b && isHexDigitChar c then
      some (String.mk ['#', a, b, c])
    else none
  | _ => none

/-- Expect one literal character. -/
def expectChar (c : Char) : List Char → Option (List Char)
  | x :: r => if x = c then some r else none
  | [] => none

/-- Expect `\d+`. -/
def expectDigits (s : List Char) : Option (List Char) :=
  let ds := s.takeWhile Char.isDigit
  if ds.isEmpty then none else some (s.drop ds.length)

/-- `RGB_COLOR_RE` tried at one position, returning the number of matched
characters (the whole match is passed through verbatim). -/
def rgbAt (s : List Char) : Option Nat := do
  let r1 ← matchPrefixCI ("rgb").data s
  let r2 ← expectChar '(' (r1.dropWhile pyWs)
  let r3 ← expectDigits (r2.dropWhile pyWs)
  let r4 ← expectChar ',' (r3.dropWhile pyWs)
  let r5 ← expectDigits (r4.dropWhile pyWs)
  let r6 ← expectChar ',' (r5.dropWhile pyWs)
  let r7 ← expectDigits (r6.dropWhile pyWs)
  let r8 ← expectChar ')' (r7.dropWhile pyWs)
  pure (s.length - r8.length)

/-- `_extract_color(sentence, lowered)`: hex literal, then `rgb(...)`
literal, then the first colour name appearing as a whole word. -/
def extract_color (sentence lowered : String) : Option String :=
  match scanFor hexAt sentence.data with
  | some h => some (strUpper h)
  | none =>
    match scanFor (fun s => (rgbAt s).map (fun len => String.mk (s.take len))) sentence.data with
    | some r => some r
    | none => (COLOR_NAME_MAP.find? (fun kv => containsWord lowered kv.1)).map Prod.snd

/-- `_extract_dash_style(lowered)`: first keyword (in catalogue order)
contained in the sentence. -/
def extract_dash_style (lowered : String) : Option String :=
  (DASH_KEYWORDS.find? (fun kv => strContains lowered kv.1)).map Prod.snd

/-- Does one of the keywords match (case-insensitively) at this position? -/
def keywordHereCI (kws : List String) (s : List Char) : Bool :=
  kws.any (fun kw => (matchPrefixCI kw.data s).isSome)

/-- First keyword of the list matching at this position, returning the
remainder (regex alternation order). -/
def firstMatchCI : List String → List Char → Option (List Char)
  | [], _ => none
  | kw :: rest, s =>
    match matchPrefixCI kw.data s with
    | some r => some r
    | none => firstMatchCI rest s

/-- `LINE_WIDTH_PATTERNS[0]` tried at one position:
`(\d+(?:\.\d+)?)\s*(?:px|pt)?\s*(?:line width|linewidth|thickness|stroke)`.
The optional-unit backtracking reduces to trying the keyword both after the
unit and directly. -/
def lineWidthP1At (s : List Char) : Option Rat :=
  match numberAt s with
  | none => none
  | some (v, len) =>
    let r2 := (s.drop len).dropWhile pyWs
    let hit :=
      (match
        (match matchPrefixCI ("px").data r2 with
         | some r => some r
         | none => matchPrefixCI ("pt").data r2) with
       | some r => keywordHereCI WIDTH_KEYWORDS (r.dropWhile pyWs)
       | none => false)
      || keywordHereCI WIDTH_KEYWORDS r2
    if hit then some v else none

/-- `LINE_WIDTH_PATTERNS[1]` tried at one position:
`(?:line width|linewidth|thickness|stroke)\s*(?:of|to)?\s*(\d+(?:\.\d+)?)(?:\s*(?:px|pt))?`. -/
def lineWidthP2At (s : List Char) : Option Rat :=
  match firstMatchCI WIDTH_KEYWORDS s with
  | none => none
  | some rest =>
    let r2 := rest.dropWhile pyWs
    let r3 :=
      match matchPrefixCI ("of").data r2 with
      | some r => r
      | none =>
        match matchPrefixCI ("to").data r2 with
        | some r => r
        | none => r2
    (numberAt (r3.dropWhile pyWs)).map Prod.fst

/-- `_extract_line_width(sentence)`: the two patterns tried in order over
the whole sentence; integral values are returned as integers. -/
def extract_line_width (sentence : String) : Option Node :=
  match scanFor lineWidthP1At sentence.data with
  | some v => some (ratToPyNumber v)
  | none =>
    match scanFor lineWidthP2At sentence.data with
    | some v => some (ratToPyNumber v)
    | none => none

/-- `_detect_boolean(lowered)`: negative phrases win, then positive
phrases, else undecided. -/
def detect_boolean (lowered : String) : Option Bool :=
  if NEGATIVE_BOOL_PHRASES.any (fun p => strContains lowered p) then some false
  else if POSITIVE_BOOL_PHRASES.any (fun p => strContains lowered p) then some true
  else none

/-- Lazy-gap search for the first digit suffix. -/
def firstDigitSuffix : List Char → Option (List Char)
  | [] => none
  | c :: cs => if c.isDigit then some (c :: cs) else firstDigitSuffix cs

/-- `_extract_fill_opacity(sentence)`: `fill opacity.*?(\d+(?:\.\d+)?%?)`,
percent divided by 100, clamped to [0, 1]; always a float. -/
def extract_fill_opacity (sentence : String) : Option Node :=
  match findSubCI ("fill opacity").data sentence.data with
  | none => none
  | some rest =>
    match firstDigitSuffix rest with
    | none => none
    | some s2 =>
      match numberAt s2 with
      | none => none
      | some (v, len) =>
        let isPct := match s2.drop len with | '%' :: _ => true | _ => false
        let numeric := if isPct then v / 100 else v
        some (Node.num (max (0 : Rat) (min (1 : Rat) numeric)))

/-- `donut|doughnut` tried at one position. -/
def donutAt (s : List Char) : Option (List Char) :=
  match matchPrefixCI ("donut").data s with
  | some r => some r
  | none => matchPrefixCI ("doughnut").data s

/-- Default donut size when the word appears with no explicit number. -/
def innerSizeDefault (sentence : String) : Option String :=
  if strContains (strLower sentence) ("donut") || strContains (strLower sentence) ("doughnut")
  then some ("60%") else none

/-- `DONUT_SIZE_RE` branch of `_extract_inner_size`. -/
def innerSizeDonut (sentence : String) : Option String :=
  match scanFor donutAt sentence.data with
  | some rest =>
    match digitsPercentFrom rest with
    | some v => some v
    | none => innerSizeDefault sentence
  | none => innerSizeDefault sentence

/-- `_extract_inner_size(sentence)`: `inner size.*?(\d+%)`, else
`(donut|doughnut).*?(\d+%)`, else a literal `60%` when the donut word is
present. -/
def extract_inner_size (sentence : String) : Option String :=
  match findSubCI ("inner size").data sentence.data with
  | some rest =>
    match digitsPercentFrom rest with
    | some v => some v
    | none => innerSizeDonut sentence
  | none => innerSizeDonut sentence

/-- `_marker_enabled_path(chart_type)`.  Falsy or non-string chart types
take the generic branch; the collapse of the non-string truthy case is
sound because such values are in none of the membership sets. -/
def marker_enabled_path (chart_type : Option Node) : String :=
  match chart_type with
  | some (Node.str s) =>
    if s = "" then "plotOptions.series.marker.enabled"
    else if s = "line" || s = "area" || s = "spline" || s = "areaspline" then
      "plotOptions." ++ s ++ ".marker.enabled"
    else if s = "scatter" then "plotOptions.scatter.marker.enabled"
    else "plotOptions.series.marker.enabled"
  | _ => "plotOptions.series.marker.enabled"

/-- `RADIUS_RE` tried at one position:
`(\d+(?:\.\d+)?)\s*(?:px)?\s*(?:radius|size)`. -/
def radiusP1At (s : List Char) : Option Rat :=
  match numberAt s with
  | none => none
  | some (v, len) =>
    let r2 := (s.drop len).dropWhile pyWs
    let hit :=
      (match matchPrefixCI ("px").data r2 with
       | some r => keywordHereCI RADIUS_KEYWORDS (r.dropWhile pyWs)
       | none => false)
      || keywordHereCI RADIUS_KEYWORDS r2
    if hit then some v else none

/-- `_extract_marker_radius(sentence)`: `RADIUS_RE` first, then
`RADIUS_AFTER_RE` (`(?:radius|size).*?(\d+(?:\.\d+)?)`). -/
def extract_marker_radius (sentence : String) : Option Node :=
  match scanFor radiusP1At sentence.data with
  | some v => some (ratToPyNumber v)
  | none =>
    match scanFor (firstMatchCI RADIUS_KEYWORDS) sentence.data with
    | none => none
    | some rest =>
      match firstNumberFrom rest with
      | some v => some (ratToPyNumber v)
      | none => none

/-- `_extract_marker_symbol(lowered)`: first catalogue keyword contained in
the sentence. -/
def extract_marker_symbol (lowered : String) : Option String :=
  (MARKER_SYMBOL_MAP.find? (fun kv => strContains lowered kv.1)).map Prod.snd

/-- `_mentions_all_series(sentence)`. -/
def mentions_all_series (sentence : String) : Bool :=
  strContains sentence ("all series") || strContains sentence ("every series")

-- Target resolution (`_series_targets`, lines 191-223).

/-- `SERIES_NUMBER_RE` (`series\s+(\d+)`, case-insensitive) tried at one
position. -/
def seriesNumAt (s : List Char) : Option Nat :=
  match matchPrefixCI ("series").data s with
  | none => none
  | some rest =>
    let ws := rest.takeWhile pyWs
    if ws.isEmpty then none
    else
      let ds := (rest.drop ws.length).takeWhile Char.isDigit
      if ds.isEmpty then none else some (digitsToNat ds)

/-- `SERIES_NUMBER_RE.search`. -/
def findSeriesNumber (s : List Char) : Option Nat := scanFor seriesNumAt s

/-- The ordinal-word alternation tried at one position. -/
def tryOrdinalWords : List (String × Nat) → List Char → Option (Nat × List Char)
  | [], _ => none
  | (w, i) :: rest, s =>
    match matchPrefixCI w.data s with
    | some r => some (i, r)
    | none => tryOrdinalWords rest s

/-- The noun alternation tried at one position. -/
def tryNouns : List String → List Char → Option (List Char)
  | [], _ => none
  | w :: rest, s =>
    match matchPrefixCI w.data s with
    | some r => some r
    | none => tryNouns rest s

/-- `ORDINAL_SERIES_RE` tried at one position (word boundaries on both
sides; `prevWord` says whether the preceding character was a word
character). -/
def ordinalSeriesAt (prevWord : Bool) (s : List Char) : Option Nat :=
  if prevWord then none
  else
    match tryOrdinalWords ORDINAL_WORD_MAP s with
    | none => none
    | some (idx, rest) =>
      let ws := rest.takeWhile pyWs
      if ws.isEmpty then none
      else
        match tryNouns SERIES_NOUN_WORDS (rest.drop ws.length) with
        | none => none
        | some rest3 =>
          match rest3 with
          | [] => some idx
          | c :: _ => if isWordChar c then none else some idx

/-- `ORDINAL_SERIES_RE.search`. -/
def findOrdinalSeries : Bool → List Char → Option Nat
  | _, [] => none
  | prevWord, c :: cs =>
    match ordinalSeriesAt prevWord (c :: cs) with
    | some i => some i
    | none => findOrdinalSeries (isWordChar c) cs

/-- `str(serie.get("name", ""))` for one series entry. -/
def seriesName (serie : Node) : String :=
  match serie with
  | Node.map m => pyStr ((mapGet m ("name")).getD (Node.str ("")))
  | _ => ""

/-- The name-substring rule: first series whose non-empty lowered name
occurs in the sentence. -/
def nameTarget (sentence : String) : List Node → Nat → Option Nat
  | [], _ => none
  | serie :: rest, i =>
    let name := seriesName serie
    if name ≠ "" && strContains sentence (strLower name) then some i
    else nameTarget sentence rest (i + 1)

/-- Rules (d) and (e) of `_series_targets`: name substring, then the
single-series default for a bare `series` mention. -/
def series_targets_tail (sentence : String) (series : List Node) : List Nat :=
  match nameTarget sentence series 0 with
  | some i => [i]
  | none =>
    if strContains sentence ("series") && series.length = 1 then [0] else []

/-- Rules (c)-(e) of `_series_targets`: the ordinal rule falls through to
the tail rules when it does not produce an in-range index. -/
def series_targets_rest (sentence : String) (series : List Node) : List Nat :=
  match findOrdinalSeries false sentence.data with
  | some idx =>
    if idx < series.length then [idx] else series_targets_tail sentence series
  | none => series_targets_tail sentence series

/-- `_series_targets(sentence, series)`.  An explicit `series N` whose
index is out of range does not return: the source falls through to the
remaining rules. -/
def series_targets (sentence : String) (series : List Node) : List Nat :=
  if series.length = 0 then []
  else if mentions_all_series sentence then List.range series.length
  else
    match findSeriesNumber sentence.data with
    | some n =>
      if 1 ≤ n && n - 1 < series.length then [n - 1]
      else series_targets_rest sentence series
    | none => series_targets_rest sentence series

-- ---------------------------------------------------------------------------
-- `instructions_to_updates` (lines 97-188)
-- ---------------------------------------------------------------------------

/-- One decimal digit character. -/
def digitChar : Nat → Char
  | 0 => '0' | 1 => '1' | 2 => '2' | 3 => '3' | 4 => '4'
  | 5 => '5' | 6 => '6' | 7 => '7' | 8 => '8' | 9 => '9'
  | _ => '?'

/-- Decimal digits of `n` (fuelled; any fuel above `n` is enough). -/
def natDigits : Nat → Nat → List Char
  | 0, _ => []
  | fuel + 1, n =>
    if n < 10 then [digitChar n]
    else natDigits fuel (n / 10) ++ [digitChar (n % 10)]

/-- `str(n)` for a non-negative index, as an f-string renders it. -/
def natStr (n : Nat) : String := String.mk (natDigits (n + 1) n)

/-- The f-string `f"series[{idx}]" + suffix`. -/
def seriesPath (i : Nat) (suffix : String) : String :=
  "series[" ++ natStr i ++ "]" ++ suffix

/-- An update record `{path, value}` emitted by the translator or supplied
by the caller. -/
structure Update where
  path : String
  value : Node

/-- `options.get("chart").get("type")` guarded by the `Mapping` checks. -/
def documentChartType (options : Node) : Option Node :=
  match options with
  | Node.map m =>
    match mapGet m ("chart") with
    | some (Node.map cm) => mapGet cm ("type")
    | _ => none
  | _ => none

/-- `options.get("series", [])` guarded by the `Sequence` check.  A string
is a Python `Sequence`; iterating it yields one-character strings. -/
def documentSeries (options : Node) : List Node :=
  match options with
  | Node.map m =>
    match mapGet m ("series") with
    | some (Node.seq l) => l
    | some (Node.str s) => s.data.map (fun c => Node.str (String.mk [c]))
    | _ => []
  | _ => []

/-- `chart_type == s` for a string literal `s` (Python equality between a
node and a string holds only for equal strings). -/
def ctIs (chart_type : Option Node) (s : String) : Bool :=
  match chart_type with
  | some (Node.str t) => t = s
  | _ => false

/-- Split at every `.`, `;` or newline.  `re.split(r"[.;\n]+", text)`
collapses separator runs, but after stripping and dropping empty segments
the two splittings agree. -/
def splitSegs : List Char → List (List Char)
  | [] => [[]]
  | c :: cs =>
    if c = '.' || c = ';' || c = '\n' then [] :: splitSegs cs
    else
      match splitSegs cs with
      | s :: rest => (c :: s) :: rest
      | [] => [[c]]

/-- `segment.strip()`. -/
def pyStrip (l : List Char) : List Char :=
  ((l.dropWhile pyWs).reverse.dropWhile pyWs).reverse

/-- The per-sentence body of the `for sentence in sentences` loop: each
facet block contributes its updates in the source's append order. -/
def sentenceUpdates (chart_type : Option Node) (series : List Node)
    (sentence : String) : List Update :=
  let lowered := strLower sentence
  let targets := series_targets lowered series
  let color_value := extract_color sentence lowered
  let colorBlock :=
    match color_value with
    | some c =>
      if c ≠ "" && !targets.isEmpty then
        targets.map (fun i => Update.mk (seriesPath i (".color")) (Node.str c))
      else []
    | none => []
  let dashBlock :=
    match extract_dash_style lowered with
    | some d =>
      if d ≠ "" && !targets.isEmpty then
        targets.map (fun i => Update.mk (seriesPath i (".dashStyle")) (Node.str d))
      else []
    | none => []
  let widthBlock :=
    match extract_line_width sentence with
    | some v =>
      if !targets.isEmpty then
        targets.map (fun i => Update.mk (seriesPath i (".lineWidth")) v)
      else []
    | none => []
  let dataLabelBlock :=
    if strContains lowered ("data label") then
      match detect_boolean lowered with
      | some b =>
        if !targets.isEmpty && !mentions_all_series lowered then
          targets.map (fun i => Update.mk (seriesPath i (".dataLabels.enabled")) (Node.bool b))
        else [Update.mk ("plotOptions.series.dataLabels.enabled") (Node.bool b)]
      | none => []
    else []
  let legendBlock :=
    if strContains lowered ("legend") then
      match detect_boolean lowered with
      | some b => [Update.mk ("legend.enabled") (Node.bool b)]
      | none => []
    else []
  let markerBlock :=
    if strContains lowered ("marker") then
      (match detect_boolean lowered with
       | some b =>
         let marker_path := marker_enabled_path chart_type
         if marker_path ≠ "" then [Update.mk marker_path (Node.bool b)]
         else if !targets.isEmpty then
           targets.map (fun i => Update.mk (seriesPath i (".marker.enabled")) (Node.bool b))
         else []
       | none => []) ++
      (match extract_marker_radius sentence with
       | some v =>
         if ctIs chart_type ("scatter") then
           [Update.mk ("plotOptions.scatter.marker.radius") v]
         else if !targets.isEmpty then
           targets.map (fun i => Update.mk (seriesPath i (".marker.radius")) v)
         else []
       | none => []) ++
      (match extract_marker_symbol lowered with
       | some sym =>
         if sym ≠ "" then
           if ctIs chart_type ("scatter") then
             [Update.mk ("plotOptions.scatter.marker.symbol") (Node.str sym)]
           else if !targets.isEmpty then
             targets.map (fun i => Update.mk (seriesPath i (".marker.symbol")) (Node.str sym))
           else []
         else []
       | none => [])
    else []
  let scatterFillBlock :=
    match color_value with
    | some c =>
      if c ≠ "" && targets.isEmpty && ctIs chart_type ("scatter")
          && strContains lowered ("marker") then
        [Update.mk ("plotOptions.scatter.marker.fillColor") (Node.str c)]
      else []
    | none => []
  let opacityBlock :=
    match chart_type with
    | some (Node.str t) =>
      if t = "area" || t = "areaspline" then
        match extract_fill_opacity sentence with
        | some v => [Update.mk ("plotOptions." ++ t ++ ".fillOpacity") v]
        | none => []
      else []
    | _ => []
  let pieBlock :=
    if ctIs chart_type ("pie") then
      (match extract_inner_size sentence with
       | some v =>
         if v ≠ "" then [Update.mk ("plotOptions.pie.innerSize") (Node.str v)]
         else []
       | none => []) ++
      (if strContains lowered ("legend") then
        match detect_boolean lowered with
        | some b => [Update.mk ("plotOptions.pie.showInLegend") (Node.bool b)]
        | none => []
       else []) ++
      (if strContains lowered ("data label") then
        match detect_boolean lowered with
        | some b => [Update.mk ("plotOptions.pie.dataLabels.enabled") (Node.bool b)]
        | none => []
       else [])
    else []
  colorBlock ++ dashBlock ++ widthBlock ++ dataLabelBlock ++ legendBlock
    ++ markerBlock ++ scatterFillBlock ++ opacityBlock ++ pieBlock

/-- `instructions_to_updates(instructions, options)`: split into stripped
non-empty sentences, translate each, concatenate in order. -/
def instructions_to_updates (instructions : String) (options : Node) :
    List Update :=
  if instructions = "" then []
  else
    let chart_type := documentChartType options
    let series := documentSeries options
    let sentences := ((splitSegs instructions.data).map pyStrip).filter (fun l => !l.isEmpty)
    (sentences.map (fun l => sentenceUpdates chart_type series (String.mk l))).flatten

-- ---------------------------------------------------------------------------
-- Update Orchestrator (`customize_chart`, customize_chart.py lines 115-140)
-- ---------------------------------------------------------------------------

/-- A change-log record `{path, before, after}`. -/
structure Change where
  path : String
  before : Node
  after : Node

/-- The body of one loop iteration of `customize_chart` for a record with a
non-empty path: tokenize, validate against the document's chart kind, read
the previous value, write the new one. -/
def applyStep (options : Node) (chart_type : Option Node) (u : Update) :
    Except String (Node × Change) :=
  match tokenize_path u.path with
  | Except.error e => Except.error e
  | Except.ok tokens =>
    match validate_update_path tokens chart_type with
    | Except.error e => Except.error e
    | Except.ok _ =>
      let previous := get_nested_value options tokens
      match set_nested_value options tokens u.value with
      | Except.error e => Except.error e
      | Except.ok (options2, _) =>
        Except.ok (options2, Change.mk u.path previous u.value)

/-- Outcome of the orchestration loop: either every record was applied and
the document continues to persistence, or a failure aborted the loop with
the in-memory document as mutated so far (the function returns before
`persist_chart_payload` is reached). -/
inductive OrchOutcome where
  | completed (doc : Node) (log : List Change) : OrchOutcome
  | aborted (doc : Node) (err : String) : OrchOutcome

/-- Did the orchestration hand the document to the persistence
collaborator? -/
def handedToPersistence : OrchOutcome → Bool
  | OrchOutcome.completed _ _ => true
  | OrchOutcome.aborted _ _ => false

/-- The `for update in updates` loop of `customize_chart`: records with a
falsy path are skipped, the first failing record aborts with the document
as mutated so far, otherwise the change log grows in order. -/
def applyLoop (options : Node) (chart_type : Option Node) (log : List Change) :
    List Update → OrchOutcome
  | [] => OrchOutcome.completed options log
  | u :: rest =>
    if u.path = "" then applyLoop options chart_type log rest
    else
      match applyStep options chart_type u with
      | Except.error e => OrchOutcome.aborted options e
      | Except.ok (options2, change) =>
        applyLoop options2 chart_type (log ++ [change]) rest

-- ---------------------------------------------------------------------------
-- Helper notions and lemmas
-- ---------------------------------------------------------------------------

/-- Did the call succeed? -/
def exOk {ε α : Type} : Except ε α → Bool
  | Except.ok _ => true
  | Except.error _ => false

/-- Is the token an integer index? -/
def isIndexTok : Tok → Bool
  | Tok.index _ => true
  | Tok.field _ => false

/-- The walk condition of `set_nested_value`, stated separately from the
writing: an index token demands that the current node be a list and a field
token that it be a dict; before descending, the walk continues into the
child `set_nested_value` itself walks into (the kept container, or the
fresh empty container when the child is absent or not a container). -/
def walkOk : Node → List Tok → Bool
  | _, [] => true
  | container, Tok.index i :: rest =>
    match container with
    | Node.seq l =>
      match rest with
      | [] => true
      | next :: _ => walkOk (ensure_sequence l i next).2 rest
    | _ => false
  | container, Tok.field k :: rest =>
    match container with
    | Node.map m =>
      match rest with
      | [] => true
      | next :: _ =>
        walkOk
          (match mapGet m k with
           | some c => if isContainer c then c else emptyFor next
           | none => emptyFor next) rest
    | _ => false

/-- Does the node have the container kind a token walks into? -/
def matchesKind (c : Node) : Tok → Bool
  | Tok.index _ => match c with | Node.seq _ => true | _ => false
  | Tok.field _ => match c with | Node.map _ => true | _ => false

/-- A freshly created empty container (either kind). -/
def isEmptyContainer (c : Node) : Prop := c = Node.map [] ∨ c = Node.seq []

/-- The frame shape of one `set_nested_value` walk from `d` to `d'` along
`tokens`: at every traversed mapping all sibling keys keep their values; at
every traversed sequence the length never shrinks and every index other
than the walked one keeps its value; and the walk continues on the pair
(walked child before, walked child after), where the before-child is either
the original node or a freshly created empty container. -/
def FramePreserved : Node → Node → List Tok → Prop
  | d, d', [] => d' = d
  | d, d', Tok.field k :: rest =>
    ∃ m m', d = Node.map m ∧ d' = Node.map m' ∧
      (∀ k', k' ≠ k → mapGet m' k' = mapGet m k') ∧
      (rest = [] ∨ ∃ c c', mapGet m' k = some c' ∧
        (mapGet m k = some c ∨ isEmptyContainer c) ∧ FramePreserved c c' rest)
  | d, d', Tok.index i :: rest =>
    ∃ l l', d = Node.seq l ∧ d' = Node.seq l' ∧
      l.length ≤ l'.length ∧
      (∀ j, j < l.length → j ≠ i → l'[j]? = l[j]?) ∧
      (rest = [] ∨ ∃ c c', l'[i]? = some c' ∧
        (l[i]? = some c ∨ isEmptyContainer c) ∧ FramePreserved c c' rest)

/-- The first character of the path that is not a `.` separator. -/
def firstNonDot : List Char → Option Char
  | [] => none
  | c :: rest => if c = '.' then firstNonDot rest else some c


theorem exOk_set_eq_walkOk : ∀ (ts : List Tok) (d v : Node),
    exOk (set_nested_value d ts v) = walkOk d ts := by
  intro ts
  induction ts with
  | nil => intro d v; rfl
  | cons t rest ih =>
    intro d v
    cases t with
    | index i =>
      cases d with
      | seq l =>
        cases rest with
        | nil => rfl
        | cons next rest2 =>
          have h2 := ih (ensure_sequence l i next).2 v
          simp only [set_nested_value, walkOk]
          rw [← h2]
          cases h : set_nested_value (ensure_sequence l i next).2 (next :: rest2) v with
          | error e => simp [h, exOk]
          | ok p => simp [h, exOk]
      | null => rfl
      | bool b => rfl
      | int n => rfl
      | num q => rfl
      | str s => rfl
      | map m => rfl
    | field k =>
      cases d with
      | map m =>
        cases rest with
        | nil => rfl
        | cons next rest2 =>
          have h2 := ih
            (match mapGet m k with
             | some c => if isContainer c then c else emptyFor next
             | none => emptyFor next) v
          simp only [set_nested_value, walkOk]
          rw [← h2]
          cases h : set_nested_value
              (match mapGet m k with
               | some c => if isContainer c then c else emptyFor next
               | none => emptyFor next) (next :: rest2) v with
          | error e => simp [h, exOk]
          | ok p => simp [h, exOk]
      | null => rfl
      | bool b => rfl
      | int n => rfl
      | num q => rfl
      | str s => rfl
      | seq l => rfl

theorem mapGet_mapSet_self : ∀ (m : List (String × Node)) (k : String) (v : Node),
    mapGet (mapSet m k v) k = some v := by
  intro m k v
  induction m with
  | nil => simp [mapSet, mapGet]
  | cons kv rest ih =>
    by_cases h : kv.1 = k
    · simp [mapSet, h, mapGet]
    · simp [mapSet, h, mapGet, ih]

theorem mapGet_mapSet_ne : ∀ (m : List (String × Node)) (k k' : String) (v : Node),
    k' ≠ k → mapGet (mapSet m k v) k' = mapGet m k' := by
  intro m k k' v hne
  have hne' : ¬(k = k') := fun h2 => hne h2.symm
  induction m with
  | nil => simp [mapSet, mapGet, hne']
  | cons kv rest ih =>
    by_cases h : kv.1 = k
    · have h2 : ¬(kv.1 = k') := by rw [h]; exact hne'
      simp [mapSet, h, mapGet, hne', h2]
    · simp [mapSet, h, mapGet, ih]

theorem mapSet_mapSet : ∀ (m : List (String × Node)) (k : String) (v w : Node),
    mapSet (mapSet m k v) k w = mapSet m k w := by
  intro m k v w
  induction m with
  | nil => simp [mapSet]
  | cons kv rest ih =>
    by_cases h : kv.1 = k
    · simp [mapSet, h]
    · simp [mapSet, h, ih]

theorem mapSet_eq_self : ∀ (m : List (String × Node)) (k : String) (v : Node),
    mapGet m k = some v → mapSet m k v = m := by
  intro m k v h
  induction m with
  | nil => simp [mapGet] at h
  | cons kv rest ih =>
    by_cases hk : kv.1 = k
    · rw [mapGet, if_pos hk] at h
      have hv : kv.2 = v := Option.some.inj h
      rw [mapSet, if_pos hk, ← hv, ← hk]
    · rw [mapGet, if_neg hk] at h
      simp [mapSet, hk, ih h]

theorem lt_length_pad (l : List Node) (i : Nat) (f : Node) :
    i < (l ++ List.replicate (i + 1 - l.length) f).length := by
  simp
  omega

theorem set_set_list : ∀ (l : List Node) (i : Nat) (a b : Node),
    (l.set i a).set i b = l.set i b := by
  intro l
  induction l with
  | nil => intro i a b; rfl
  | cons x rest ih =>
    intro i a b
    cases i with
    | zero => rfl
    | succ j => simp [List.set, ih]

theorem set_eq_self_of_getElem? : ∀ (l : List Node) (i : Nat) (v : Node),
    l[i]? = some v → l.set i v = l := by
  intro l
  induction l with
  | nil => intro i v h; simp at h
  | cons x rest ih =>
    intro i v h
    cases i with
    | zero => simp at h; simp [List.set, h]
    | succ j =>
      simp at h
      simp [List.set, ih j v h]

theorem set_then_get : ∀ (ts : List Tok) (d v d' p : Node), ts ≠ [] →
    set_nested_value d ts v = Except.ok (d', p) →
    get_nested_value d' ts = v := by
  intro ts
  induction ts with
  | nil => intro d v d' p h _; exact absurd rfl h
  | cons t rest ih =>
    intro d v d' p _ hset
    cases t with
    | index i =>
      cases d with
      | seq l =>
        cases rest with
        | nil =>
          simp only [set_nested_value] at hset
          cases hset
          simp only [get_nested_value]
          rw [List.getElem?_set_self (by simpa using lt_length_pad l i Node.null)]
        | cons next rest2 =>
          simp only [set_nested_value] at hset
          cases h2 : set_nested_value (ensure_sequence l i next).2 (next :: rest2) v with
          | error e => rw [h2] at hset; exact absurd hset (by simp)
          | ok pr =>
            rw [h2] at hset
            cases pr with
            | mk target2 prev =>
              cases hset
              simp only [get_nested_value]
              have hlen : i < (ensure_sequence l i next).1.length := by
                simp only [ensure_sequence, List.length_set]
                exact lt_length_pad l i (emptyFor next)
              rw [List.getElem?_set_self hlen]
              exact ih _ v _ _ (by simp) h2
      | null => exact absurd hset (by simp [set_nested_value])
      | bool b => exact absurd hset (by simp [set_nested_value])
      | int n => exact absurd hset (by simp [set_nested_value])
      | num q => exact absurd hset (by simp [set_nested_value])
      | str s => exact absurd hset (by simp [set_nested_value])
      | map m => exact absurd hset (by simp [set_nested_value])
    | field k =>
      cases d with
      | map m =>
        cases rest with
        | nil =>
          simp only [set_nested_value] at hset
          cases hset
          simp only [get_nested_value]
          rw [mapGet_mapSet_self]
        | cons next rest2 =>
          simp only [set_nested_value] at hset
          cases h2 : set_nested_value
              (match mapGet m k with
               | some c => if isContainer c then c else emptyFor next
               | none => emptyFor next) (next :: rest2) v with
          | error e => rw [h2] at hset; exact absurd hset (by simp)
          | ok pr =>
            rw [h2] at hset
            cases pr with
            | mk child2 prev =>
              cases hset
              simp only [get_nested_value]
              rw [mapGet_mapSet_self]
              exact ih _ v _ _ (by simp) h2
      | null => exact absurd hset (by simp [set_nested_value])
      | bool b => exact absurd hset (by simp [set_nested_value])
      | int n => exact absurd hset (by simp [set_nested_value])
      | num q => exact absurd hset (by simp [set_nested_value])
      | str s => exact absurd hset (by simp [set_nested_value])
      | seq l => exact absurd hset (by simp [set_nested_value])

theorem set_ok_shape : ∀ (t : Tok) (rest : List Tok) (c v c2 p : Node),
    set_nested_value c (t :: rest) v = Except.ok (c2, p) →
    matchesKind c t = true ∧ matchesKind c2 t = true := by
  intro t rest c v c2 p hset
  cases t with
  | index i =>
    cases c with
    | seq l =>
      refine ⟨rfl, ?_⟩
      cases rest with
      | nil =>
        simp only [set_nested_value] at hset
        cases hset
        rfl
      | cons next rest2 =>
        simp only [set_nested_value] at hset
        cases h2 : set_nested_value (ensure_sequence l i next).2 (next :: rest2) v with
        | error e => rw [h2] at hset; exact absurd hset (by simp)
        | ok pr =>
          rw [h2] at hset
          cases pr
          cases hset
          rfl
    | null => exact absurd hset (by simp [set_nested_value])
    | bool b => exact absurd hset (by simp [set_nested_value])
    | int n => exact absurd hset (by simp [set_nested_value])
    | num q => exact absurd hset (by simp [set_nested_value])
    | str s => exact absurd hset (by simp [set_nested_value])
    | map m => exact absurd hset (by simp [set_nested_value])
  | field k =>
    cases c with
    | map m =>
      refine ⟨rfl, ?_⟩
      cases rest with
      | nil =>
        simp only [set_nested_value] at hset
        cases hset
        rfl
      | cons next rest2 =>
        simp only [set_nested_value] at hset
        cases h2 : set_nested_value
            (match mapGet m k with
             | some c => if isContainer c then c else emptyFor next
             | none => emptyFor next) (next :: rest2) v with
        | error e => rw [h2] at hset; exact absurd hset (by simp)
        | ok pr =>
          rw [h2] at hset
          cases pr
          cases hset
          rfl
    | null => exact absurd hset (by simp [set_nested_value])
    | bool b => exact absurd hset (by simp [set_nested_value])
    | int n => exact absurd hset (by simp [set_nested_value])
    | num q => exact absurd hset (by simp [set_nested_value])
    | str s => exact absurd hset (by simp [set_nested_value])
    | seq l => exact absurd hset (by simp [set_nested_value])

theorem pad_vanish (l : List Node) (i : Nat) (f : Node) (h : i < l.length) :
    l ++ List.replicate (i + 1 - l.length) f = l := by
  have h0 : i + 1 - l.length = 0 := by omega
  rw [h0]
  simp

theorem ensure_sequence_stable (l : List Node) (i : Nat) (next : Tok) (c : Node)
    (hlen : i < l.length) (hget : l[i]? = some c)
    (hkind : matchesKind c next = true) :
    ensure_sequence l i next = (l, c) := by
  simp only [ensure_sequence, pad_vanish l i (emptyFor next) hlen]
  have hgetD : l.getD i Node.null = c := by
    rw [List.getD_eq_getElem?_getD, hget]
    rfl
  rw [hgetD]
  cases next with
  | index j =>
    cases c with
    | seq s => simp [set_eq_self_of_getElem? l i (Node.seq s) hget]
    | null => simp [matchesKind] at hkind
    | bool b => simp [matchesKind] at hkind
    | int n => simp [matchesKind] at hkind
    | num q => simp [matchesKind] at hkind
    | str s => simp [matchesKind] at hkind
    | map m => simp [matchesKind] at hkind
  | field k =>
    cases c with
    | map m => simp [set_eq_self_of_getElem? l i (Node.map m) hget]
    | null => simp [matchesKind] at hkind
    | bool b => simp [matchesKind] at hkind
    | int n => simp [matchesKind] at hkind
    | num q => simp [matchesKind] at hkind
    | str s => simp [matchesKind] at hkind
    | seq s => simp [matchesKind] at hkind

theorem set_idem : ∀ (ts : List Tok) (d v d' p : Node),
    set_nested_value d ts v = Except.ok (d', p) → ts ≠ [] →
    set_nested_value d' ts v = Except.ok (d', v) := by
  intro ts
  induction ts with
  | nil => intro d v d' p _ h; exact absurd rfl h
  | cons t rest ih =>
    intro d v d' p hset _
    cases t with
    | index i =>
      cases d with
      | seq l =>
        cases rest with
        | nil =>
          simp only [set_nested_value] at hset
          cases hset
          have hlen : i < ((l ++ List.replicate (i + 1 - l.length) Node.null).set i v).length := by
            rw [List.length_set]
            exact lt_length_pad l i Node.null
          have hget : ((l ++ List.replicate (i + 1 - l.length) Node.null).set i v)[i]? = some v :=
            List.getElem?_set_self (by simpa using hlen)
          simp only [set_nested_value]
          rw [pad_vanish _ i Node.null hlen]
          rw [set_eq_self_of_getElem? _ i v hget]
          rw [List.getD_eq_getElem?_getD, hget]
          rfl
        | cons next rest2 =>
          simp only [set_nested_value] at hset
          cases h2 : set_nested_value (ensure_sequence l i next).2 (next :: rest2) v with
          | error e => rw [h2] at hset; exact absurd hset (by simp)
          | ok pr =>
            rw [h2] at hset
            cases pr with
            | mk target2 prev =>
              cases hset
              have hshape := set_ok_shape next rest2 _ v _ _ h2
              have hlen : i < ((ensure_sequence l i next).1.set i target2).length := by
                rw [List.length_set]
                simp only [ensure_sequence, List.length_set]
                exact lt_length_pad l i (emptyFor next)
              have hget : ((ensure_sequence l i next).1.set i target2)[i]? = some target2 :=
                List.getElem?_set_self (by simpa using hlen)
              simp only [set_nested_value]
              rw [ensure_sequence_stable _ i next target2 hlen hget hshape.2]
              rw [ih _ v _ _ h2 (by simp)]
              simp [List.set_set]
      | null => exact absurd hset (by simp [set_nested_value])
      | bool b => exact absurd hset (by simp [set_nested_value])
      | int n => exact absurd hset (by simp [set_nested_value])
      | num q => exact absurd hset (by simp [set_nested_value])
      | str s => exact absurd hset (by simp [set_nested_value])
      | map m => exact absurd hset (by simp [set_nested_value])
    | field k =>
      cases d with
      | map m =>
        cases rest with
        | nil =>
          simp only [set_nested_value] at hset
          cases hset
          simp only [set_nested_value]
          rw [mapGet_mapSet_self, mapSet_mapSet]
          rfl
        | cons next rest2 =>
          simp only [set_nested_value] at hset
          cases h2 : set_nested_value
              (match mapGet m k with
               | some c => if isContainer c then c else emptyFor next
               | none => emptyFor next) (next :: rest2) v with
          | error e => rw [h2] at hset; exact absurd hset (by simp)
          | ok pr =>
            rw [h2] at hset
            cases pr with
            | mk child2 prev =>
              cases hset
              have hshape := set_ok_shape next rest2 _ v _ _ h2
              have hcont : isContainer child2 = true := by
                cases next with
                | index j =>
                  cases child2 <;> first | rfl | simp [matchesKind] at hshape
                | field k2 =>
                  cases child2 <;> first | rfl | simp [matchesKind] at hshape
              simp only [set_nested_value]
              rw [mapGet_mapSet_self]
              simp only [hcont, if_pos]
              rw [ih _ v _ _ h2 (by simp)]
              simp [mapSet_mapSet]
      | null => exact absurd hset (by simp [set_nested_value])
      | bool b => exact absurd hset (by simp [set_nested_value])
      | int n => exact absurd hset (by simp [set_nested_value])
      | num q => exact absurd hset (by simp [set_nested_value])
      | str s => exact absurd hset (by simp [set_nested_value])
      | seq l => exact absurd hset (by simp [set_nested_value])

theorem ensure_snd_spec (l : List Node) (i : Nat) (next : Tok) :
    l[i]? = some (ensure_sequence l i next).2
      ∨ isEmptyContainer (ensure_sequence l i next).2 := by
  simp only [ensure_sequence]
  by_cases hi : i < l.length
  · rw [List.getD_eq_getElem?_getD, List.getElem?_append_left hi,
      List.getElem?_eq_getElem hi, Option.getD_some]
    cases next with
    | index j =>
      cases hx : l[i] with
      | seq s => left; simp [List.getElem?_eq_getElem hi, hx]
      | null => right; right; rfl
      | bool b => right; right; rfl
      | int n => right; right; rfl
      | num q => right; right; rfl
      | str s => right; right; rfl
      | map m => right; right; rfl
    | field k =>
      cases hx : l[i] with
      | map m => left; simp [List.getElem?_eq_getElem hi, hx]
      | null => right; left; rfl
      | bool b => right; left; rfl
      | int n => right; left; rfl
      | num q => right; left; rfl
      | str s => right; left; rfl
      | seq s => right; left; rfl
  · have hle : l.length ≤ i := by omega
    rw [List.getD_eq_getElem?_getD, List.getElem?_append_right hle,
      List.getElem?_replicate, if_pos (by omega)]
    cases next with
    | index j => right; right; rfl
    | field k => right; left; rfl

theorem set_frame : ∀ (ts : List Tok) (d v d' p : Node),
    set_nested_value d ts v = Except.ok (d', p) → FramePreserved d d' ts := by
  intro ts
  induction ts with
  | nil =>
    intro d v d' p hset
    simp only [set_nested_value] at hset
    cases hset
    rfl
  | cons t rest ih =>
    intro d v d' p hset
    cases t with
    | index i =>
      cases d with
      | seq l =>
        cases rest with
        | nil =>
          simp only [set_nested_value] at hset
          cases hset
          refine ⟨l, _, rfl, rfl, ?_, ?_, Or.inl rfl⟩
          · rw [List.length_set]
            simp
          · intro j hj hij
            rw [List.getElem?_set_ne (fun h => hij h.symm),
              List.getElem?_append_left hj]
        | cons next rest2 =>
          simp only [set_nested_value] at hset
          cases h2 : set_nested_value (ensure_sequence l i next).2 (next :: rest2) v with
          | error e => rw [h2] at hset; exact absurd hset (by simp)
          | ok pr =>
            rw [h2] at hset
            cases pr with
            | mk target2 prev =>
              cases hset
              have hlen1 : i < (ensure_sequence l i next).1.length := by
                simp only [ensure_sequence, List.length_set]
                exact lt_length_pad l i (emptyFor next)
              refine ⟨l, _, rfl, rfl, ?_, ?_,
                Or.inr ⟨(ensure_sequence l i next).2, target2,
                  List.getElem?_set_self (by simpa using hlen1),
                  ensure_snd_spec l i next, ih _ v _ _ h2⟩⟩
              · rw [List.length_set]
                simp only [ensure_sequence, List.length_set]
                simp
              · intro j hj hij
                rw [List.getElem?_set_ne (fun h => hij h.symm)]
                simp only [ensure_sequence]
                rw [List.getElem?_set_ne (fun h => hij h.symm),
                  List.getElem?_append_left hj]
      | null => exact absurd hset (by simp [set_nested_value])
      | bool b => exact absurd hset (by simp [set_nested_value])
      | int n => exact absurd hset (by simp [set_nested_value])
      | num q => exact absurd hset (by simp [set_nested_value])
      | str s => exact absurd hset (by simp [set_nested_value])
      | map m => exact absurd hset (by simp [set_nested_value])
    | field k =>
      cases d with
      | map m =>
        cases rest with
        | nil =>
          simp only [set_nested_value] at hset
          cases hset
          exact ⟨m, _, rfl, rfl,
            fun k' hk' => mapGet_mapSet_ne m k k' v hk', Or.inl rfl⟩
        | cons next rest2 =>
          simp only [set_nested_value] at hset
          cases h2 : set_nested_value
              (match mapGet m k with
               | some c => if isContainer c then c else emptyFor next
               | none => emptyFor next) (next :: rest2) v with
          | error e => rw [h2] at hset; exact absurd hset (by simp)
          | ok pr =>
            rw [h2] at hset
            cases pr with
            | mk child2 prev =>
              cases hset
              refine ⟨m, _, rfl, rfl,
                fun k' hk' => mapGet_mapSet_ne m k k' child2 hk',
                Or.inr ⟨_, child2, mapGet_mapSet_self m k child2, ?_, ih _ v _ _ h2⟩⟩
              cases hg : mapGet m k with
              | some c =>
                by_cases hc : isContainer c = true
                · left
                  simp [hc]
                · right
                  simp only [hg, hc]
                  cases next with
                  | index j => simp [if_neg hc, emptyFor, isEmptyContainer]
                  | field k2 => simp [if_neg hc, emptyFor, isEmptyContainer]
              | none =>
                right
                simp only [hg]
                cases next with
                | index j => simp [emptyFor, isEmptyContainer]
                | field k2 => simp [emptyFor, isEmptyContainer]
      | null => exact absurd hset (by simp [set_nested_value])
      | bool b => exact absurd hset (by simp [set_nested_value])
      | int n => exact absurd hset (by simp [set_nested_value])
      | num q => exact absurd hset (by simp [set_nested_value])
      | str s => exact absurd hset (by simp [set_nested_value])
      | seq l => exact absurd hset (by simp [set_nested_value])

theorem tokAux_buf_field : ∀ (fuel : Nat) (cs buf : List Char) (path : String)
    (ts : List Tok), buf ≠ [] → tokAux path fuel cs buf = Except.ok ts →
    ∃ s rest, ts = Tok.field s :: rest := by
  intro fuel
  induction fuel with
  | zero =>
    intro cs buf path ts _ h
    exact absurd h (by simp [tokAux])
  | succ f ih =>
    intro cs buf path ts hbuf h
    cases buf with
    | nil => exact absurd rfl hbuf
    | cons b bs =>
      cases cs with
      | nil =>
        simp only [tokAux] at h
        cases h
        exact ⟨String.mk (b :: bs), [], rfl⟩
      | cons c rest =>
        by_cases hc : c = '.'
        · rw [tokAux, if_pos hc] at h
          cases hrec : tokAux path f rest [] with
          | error e => rw [hrec] at h; exact absurd h (by simp)
          | ok ts' =>
            rw [hrec] at h
            cases h
            exact ⟨String.mk (b :: bs), ts', rfl⟩
        · by_cases hb : c = '['
          · rw [tokAux, if_neg hc, if_pos hb] at h
            split at h
            · exact absurd h (by simp)
            · split at h
              · exact absurd h (by simp)
              · split at h
                · exact absurd h (by simp)
                · cases h
                  exact ⟨String.mk (b :: bs), _, rfl⟩
          · rw [tokAux, if_neg hc, if_neg hb] at h
            exact ih rest (b :: bs ++ [c]) path ts (by simp) h

theorem tokAux_head_field : ∀ (fuel : Nat) (cs : List Char) (path : String)
    (t : Tok) (ts : List Tok), tokAux path fuel cs [] = Except.ok (t :: ts) →
    firstNonDot cs ≠ some '[' → ∃ s, t = Tok.field s := by
  intro fuel
  induction fuel with
  | zero =>
    intro cs path t ts h _
    exact absurd h (by simp [tokAux])
  | succ f ih =>
    intro cs path t ts h hnb
    cases cs with
    | nil =>
      simp only [tokAux, flushBuf] at h
      exact absurd h (by simp)
    | cons c rest =>
      by_cases hc : c = '.'
      · rw [tokAux, if_pos hc] at h
        cases hrec : tokAux path f rest [] with
        | error e => rw [hrec] at h; exact absurd h (by simp)
        | ok ts' =>
          rw [hrec] at h
          have hts : ts' = t :: ts := by
            have := Except.ok.inj h
            simpa [flushBuf] using this
          rw [firstNonDot, if_pos hc] at hnb
          exact ih rest path t ts (hts ▸ hrec) hnb
      · by_cases hb : c = '['
        · rw [firstNonDot, if_neg hc, hb] at hnb
          exact absurd rfl hnb
        · rw [tokAux, if_neg hc, if_neg hb] at h
          obtain ⟨s, rest', hr⟩ := tokAux_buf_field f rest ([] ++ [c]) path (t :: ts) (by simp) h
          exact ⟨s, by cases hr; rfl⟩

theorem applyLoop_append : ∀ (us1 us2 : List Update) (d : Node)
    (ct : Option Node) (log : List Change),
    applyLoop d ct log (us1 ++ us2) =
      match applyLoop d ct log us1 with
      | OrchOutcome.completed d1 log1 => applyLoop d1 ct log1 us2
      | OrchOutcome.aborted d1 e => OrchOutcome.aborted d1 e := by
  intro us1
  induction us1 with
  | nil => intro us2 d ct log; rfl
  | cons u rest ih =>
    intro us2 d ct log
    by_cases hp : u.path = ""
    · simp only [List.cons_append, applyLoop, if_pos hp]
      exact ih us2 d ct log
    · simp only [List.cons_append, applyLoop, if_neg hp]
      cases h : applyStep d ct u with
      | error e => rfl
      | ok pr =>
        cases pr with
        | mk d2 ch => exact ih us2 d2 ct (log ++ [ch])

theorem empty_pattern_not_allowed : ∀ (ct : Option Node),
    ("") ∉ allowed_path_patterns_for_chart ct := by
  intro ct h
  rw [allowed_path_patterns_for_chart] at h
  rcases List.mem_append.mp h with h1 | h2
  · rcases List.mem_append.mp h1 with hg | hs
    · exact absurd hg (by decide)
    · exact absurd hs (by decide)
  · cases ct with
    | none => simp [chart_kind_patterns] at h2
    | some n =>
      cases n with
      | str s =>
        by_cases hs : s = ""
        · simp [chart_kind_patterns, hs] at h2
        · rw [chart_kind_patterns, if_neg hs] at h2
          cases hf : CHART_TYPE_FIELD_TEMPLATES.find? (fun kv => kv.1 = s) with
          | none => rw [hf] at h2; simp at h2
          | some kv =>
            rw [hf] at h2
            have hm := List.mem_of_find?_eq_some hf
            fin_cases hm <;> exact absurd h2 (by decide)
      | null => simp [chart_kind_patterns] at h2
      | bool b => simp [chart_kind_patterns] at h2
      | int n => simp [chart_kind_patterns] at h2
      | num q => simp [chart_kind_patterns] at h2
      | seq l => simp [chart_kind_patterns] at h2
      | map m => simp [chart_kind_patterns] at h2

theorem validate_ok_ne_nil (ts : List Tok) (ct : Option Node)
    (h : validate_update_path ts ct = Except.ok ()) : ts ≠ [] := by
  intro hnil
  subst hnil
  rw [validate_update_path] at h
  by_cases hm : normalize_tokens [] ∈ allowed_path_patterns_for_chart ct
  · have : normalize_tokens [] = "" := rfl
    rw [this] at hm
    exact empty_pattern_not_allowed ct hm
  · rw [if_neg hm] at h
    exact absurd h (by simp)

-- ---------------------------------------------------------------------------
-- Claim theorems
-- ---------------------------------------------------------------------------

/-- Claim C1: the spec claims every update emitted by the Instruction
Translator validates against the document's chart kind, and in particular
that `plotOptions.scatter.marker.enabled` is among the allowed patterns for
kind `scatter`.  Evaluating the code: on a scatter document a marker
disable sentence emits exactly that path, but the scatter tier of the
Editable-Field Schema lists only `symbol`, `radius` and `fillColor`, so
`validate_update_path` rejects the very path the translator produces. -/
theorem claim_c1_scatter_marker_enabled_rejected :
    instructions_to_updates ("Turn off the markers")
        (Node.map [("chart", Node.map [("type", Node.str ("scatter"))]),
          ("series", Node.seq [Node.map [("name", Node.str ("Points"))]])])
      = [Update.mk ("plotOptions.scatter.marker.enabled") (Node.bool false)]
    ∧ documentChartType
        (Node.map [("chart", Node.map [("type", Node.str ("scatter"))]),
          ("series", Node.seq [Node.map [("name", Node.str ("Points"))]])])
      = some (Node.str ("scatter"))
    ∧ tokenize_path ("plotOptions.scatter.marker.enabled")
      = Except.ok [Tok.field ("plotOptions"), Tok.field ("scatter"),
          Tok.field ("marker"), Tok.field ("enabled")]
    ∧ validate_update_path
        [Tok.field ("plotOptions"), Tok.field ("scatter"),
          Tok.field ("marker"), Tok.field ("enabled")]
        (some (Node.str ("scatter")))
      = Except.error
          ("Path plotOptions.scatter.marker.enabled is not editable for chart type scatter.") :=
  ⟨rfl, rfl, rfl, rfl⟩

/-- Claim C2 (amended): `set_nested_value` succeeds exactly when the walk
never meets an index token (final or not) on a non-list node nor a field
token on a non-dict node, where the walk continues into the child the
autovivification produces — the original child when it is a container (even
of the wrong kind), a fresh empty container otherwise. -/
theorem claim_c2_set_success_characterization :
    ∀ (d : Node) (ts : List Tok) (v : Node),
    exOk (set_nested_value d ts v) = walkOk d ts :=
  fun d ts v => exOk_set_eq_walkOk ts d v

/-- Claim C2 counterexample: `set` fails on a token sequence containing no
index token at all (a field token meets a list), so `InvalidContainer`-type
failures are not confined to non-final index tokens, contradicting the
claim that in every other case `set` succeeds. -/
theorem claim_c2_counterexample :
    set_nested_value (Node.map [("a", Node.seq [Node.int 1])])
      [Tok.field ("a"), Tok.field ("b")] (Node.int 0)
      = Except.error ("Expected mapping while updating path segment b.")
    ∧ ([Tok.field ("a"), Tok.field ("b")].all fun t => !isIndexTok t) = true :=
  ⟨rfl, rfl⟩

/-- Claim C3 (amended): when a sentence carries an explicit `series N`
whose zero-based index is out of range, the explicit-number rule does not
resolve to the empty target set; the source falls through and the later
rules (ordinal, name substring, single-series default) are consulted. -/
theorem claim_c3_out_of_range_number_falls_through :
    ∀ (sentence : String) (series : List Node) (n : Nat),
    series ≠ [] →
    mentions_all_series sentence = false →
    findSeriesNumber sentence.data = some n →
    (1 ≤ n && n - 1 < series.length) = false →
    series_targets sentence series = series_targets_rest sentence series := by
  intro sentence series n hne hall hfind hrange
  rw [series_targets]
  rw [if_neg (by simpa using fun h => hne (List.length_eq_zero.mp h))]
  rw [hall]
  simp only [Bool.false_eq_true, if_false]
  rw [hfind]
  simp [hrange]

theorem claim_c3_witness :
    ([Node.map []] : List Node) ≠ []
    ∧ mentions_all_series ("series 9 x") = false
    ∧ findSeriesNumber (("series 9 x").data) = some 9
    ∧ (1 ≤ 9 && 9 - 1 < ([Node.map []] : List Node).length) = false
    ∧ series_targets ("series 9 x") [Node.map []]
        = series_targets_rest ("series 9 x") [Node.map []] :=
  ⟨by simp, rfl, rfl, rfl,
    claim_c3_out_of_range_number_falls_through ("series 9 x") [Node.map []] 9
      (by simp) rfl rfl rfl⟩

/-- Claim C3 counterexample: with one series named `Alpha` and the sentence
`make series 2 red`, the explicit reference `series 2` is out of range, yet
the resolved target set is `[0]` (the single-series default fired), not the
empty set the claim requires. -/
theorem claim_c3_counterexample :
    findSeriesNumber (("make series 2 red").data) = some 2
    ∧ (1 ≤ 2 && 2 - 1 < ([Node.map [("name", Node.str ("Alpha"))]] : List Node).length) = false
    ∧ series_targets ("make series 2 red") [Node.map [("name", Node.str ("Alpha"))]] = [0] :=
  ⟨rfl, rfl, rfl⟩

/-- Claim C4 (amended): `tokenize_path` maps `series[0].color` to exactly
the tokens `series`, `0`, `color`; but it is not injective over the
accepted grammar, because separator runs collapse. -/
theorem claim_c4_series_color_tokens :
    tokenize_path ("series[0].color")
      = Except.ok [Tok.field ("series"), Tok.index 0, Tok.field ("color")] := rfl

/-- Claim C4 counterexample: two distinct accepted path strings parse to
the same token sequence, refuting injectivity. -/
theorem claim_c4_counterexample :
    tokenize_path ("a.b") = Except.ok [Tok.field ("a"), Tok.field ("b")]
    ∧ tokenize_path ("a..b") = Except.ok [Tok.field ("a"), Tok.field ("b")]
    ∧ ("a.b" : String) ≠ ("a..b" : String) :=
  ⟨rfl, rfl, by decide⟩

/-- Claim C5: write-then-read consistency — if the token sequence
validates for the chart kind and `set_nested_value` succeeds, reading the
same tokens afterwards returns exactly the just-written value. -/
theorem claim_c5_write_then_read :
    ∀ (d : Node) (ts : List Tok) (ct : Option Node) (v d' p : Node),
    validate_update_path ts ct = Except.ok () →
    set_nested_value d ts v = Except.ok (d', p) →
    get_nested_value d' ts = v :=
  fun d ts ct v d' p hval hset =>
    set_then_get ts d v d' p (validate_ok_ne_nil ts ct hval) hset

theorem claim_c5_witness :
    validate_update_path [Tok.field ("title"), Tok.field ("text")]
        (some (Node.str ("area"))) = Except.ok ()
    ∧ set_nested_value (Node.map []) [Tok.field ("title"), Tok.field ("text")]
        (Node.str ("Hi"))
      = Except.ok (Node.map [("title", Node.map [("text", Node.str ("Hi"))])], Node.null)
    ∧ get_nested_value (Node.map [("title", Node.map [("text", Node.str ("Hi"))])])
        [Tok.field ("title"), Tok.field ("text")] = Node.str ("Hi") :=
  ⟨rfl, rfl,
    claim_c5_write_then_read (Node.map []) [Tok.field ("title"), Tok.field ("text")]
      (some (Node.str ("area"))) (Node.str ("Hi")) _ _ rfl rfl⟩

/-- Claim C6: on the pie document with series `Share`, the instruction
`Make this pie a donut with inner size 70% and hide the legend` yields the
updates `plotOptions.pie.innerSize = "70%"` and `legend.enabled = false`
(the translator also adds `plotOptions.pie.showInLegend = false`). -/
theorem claim_c6_pie_donut_scenario :
    Update.mk ("plotOptions.pie.innerSize") (Node.str ("70%"))
      ∈ instructions_to_updates
          ("Make this pie a donut with inner size 70% and hide the legend")
          (Node.map [("chart", Node.map [("type", Node.str ("pie"))]),
            ("series", Node.seq [Node.map [("name", Node.str ("Share"))]])])
    ∧ Update.mk ("legend.enabled") (Node.bool false)
      ∈ instructions_to_updates
          ("Make this pie a donut with inner size 70% and hide the legend")
          (Node.map [("chart", Node.map [("type", Node.str ("pie"))]),
            ("series", Node.seq [Node.map [("name", Node.str ("Share"))]])]) := by
  have h : instructions_to_updates
      ("Make this pie a donut with inner size 70% and hide the legend")
      (Node.map [("chart", Node.map [("type", Node.str ("pie"))]),
        ("series", Node.seq [Node.map [("name", Node.str ("Share"))]])])
      = [Update.mk ("legend.enabled") (Node.bool false),
         Update.mk ("plotOptions.pie.innerSize") (Node.str ("70%")),
         Update.mk ("plotOptions.pie.showInLegend") (Node.bool false)] := rfl
  rw [h]
  exact ⟨List.Mem.tail _ (List.Mem.head _), List.Mem.head _⟩

/-- Claim C7: the orchestration loop skips records with an empty path, and
when a record fails (tokenize, validate or set), the loop aborts with that
error, the document state is exactly the one produced by the preceding
records, the remaining records are never examined, and the outcome is not
handed to the persistence collaborator. -/
theorem claim_c7_abort_on_first_failure :
    (∀ (d : Node) (ct : Option Node) (log : List Change) (v : Node)
        (rest : List Update),
      applyLoop d ct log (Update.mk ("") v :: rest) = applyLoop d ct log rest)
    ∧ (∀ (d : Node) (ct : Option Node) (us1 : List Update) (u : Update)
        (us2 : List Update) (d1 : Node) (log1 : List Change) (e : String),
      applyLoop d ct [] us1 = OrchOutcome.completed d1 log1 →
      u.path ≠ "" →
      applyStep d1 ct u = Except.error e →
      applyLoop d ct [] (us1 ++ u :: us2) = OrchOutcome.aborted d1 e
        ∧ handedToPersistence (applyLoop d ct [] (us1 ++ u :: us2)) = false) := by
  constructor
  · intro d ct log v rest
    rfl
  · intro d ct us1 u us2 d1 log1 e h1 hp hstep
    have hsplit := applyLoop_append us1 (u :: us2) d ct []
    rw [h1] at hsplit
    have hsplit2 : applyLoop d ct [] (us1 ++ u :: us2)
        = applyLoop d1 ct log1 (u :: us2) := hsplit
    have habort : applyLoop d1 ct log1 (u :: us2) = OrchOutcome.aborted d1 e := by
      rw [applyLoop, if_neg hp, hstep]
    rw [habort] at hsplit2
    exact ⟨hsplit2, by rw [hsplit2]; rfl⟩

theorem claim_c7_witness :
    applyLoop (Node.map [("chart", Node.map [("type", Node.str ("line"))])])
        (some (Node.str ("line"))) []
        [Update.mk ("title.text") (Node.str ("T"))]
      = OrchOutcome.completed
          (Node.map [("chart", Node.map [("type", Node.str ("line"))]),
            ("title", Node.map [("text", Node.str ("T"))])])
          [Change.mk ("title.text") Node.null (Node.str ("T"))]
    ∧ applyStep
        (Node.map [("chart", Node.map [("type", Node.str ("line"))]),
          ("title", Node.map [("text", Node.str ("T"))])])
        (some (Node.str ("line"))) (Update.mk ("nope") Node.null)
      = Except.error ("Path nope is not editable for chart type line.")
    ∧ applyLoop (Node.map [("chart", Node.map [("type", Node.str ("line"))])])
        (some (Node.str ("line"))) []
        ([Update.mk ("title.text") (Node.str ("T"))]
          ++ Update.mk ("nope") Node.null :: [Update.mk ("legend.enabled") (Node.bool true)])
      = OrchOutcome.aborted
          (Node.map [("chart", Node.map [("type", Node.str ("line"))]),
            ("title", Node.map [("text", Node.str ("T"))])])
          ("Path nope is not editable for chart type line.") := by
  refine ⟨rfl, rfl, ?_⟩
  exact (claim_c7_abort_on_first_failure.2
    (Node.map [("chart", Node.map [("type", Node.str ("line"))])])
    (some (Node.str ("line")))
    [Update.mk ("title.text") (Node.str ("T"))]
    (Update.mk ("nope") Node.null)
    [Update.mk ("legend.enabled") (Node.bool true)]
    _ _ _ rfl (by simp) rfl).1

/-- Claim C8 (amended): a token sequence produced by `tokenize_path`
begins with a field token whenever the first non-dot character of the path
is not `[`; a path whose first non-dot character is `[` begins with an
index token instead. -/
theorem claim_c8_head_token_is_field :
    ∀ (p : String) (t : Tok) (ts : List Tok),
    tokenize_path p = Except.ok (t :: ts) →
    firstNonDot p.data ≠ some '[' →
    ∃ s, t = Tok.field s := by
  intro p t ts h hnb
  rw [tokenize_path] at h
  by_cases hp : p = ""
  · rw [if_pos hp] at h
    exact absurd h (by simp)
  · rw [if_neg hp] at h
    exact tokAux_head_field (p.data.length + 1) p.data p t ts h hnb

theorem claim_c8_witness :
    tokenize_path ("x.y") = Except.ok [Tok.field ("x"), Tok.field ("y")]
    ∧ firstNonDot (("x.y").data) ≠ some '['
    ∧ ∃ s, Tok.field ("x") = Tok.field s :=
  ⟨rfl, by decide,
    claim_c8_head_token_is_field ("x.y") (Tok.field ("x")) [Tok.field ("y")]
      rfl (by decide)⟩

/-- Claim C8 counterexample: the accepted path `[0]` parses to a token
sequence beginning with an integer index token, so the first token of an
accepted non-empty path is not always a field name. -/
theorem claim_c8_counterexample :
    tokenize_path ("[0]") = Except.ok [Tok.index 0]
    ∧ firstNonDot (("[0]").data) = some '[' :=
  ⟨rfl, rfl⟩

/-- Claim C9: a validated and applied update is idempotent — re-applying
the same `set_nested_value` leaves the document (hence the value at the
path) unchanged, the value observed by `get_nested_value` before the
second application is the written value, and the second application's
returned previous value is the written value as well. -/
theorem claim_c9_validated_update_idempotent :
    ∀ (d : Node) (ts : List Tok) (ct : Option Node) (v d' p : Node),
    validate_update_path ts ct = Except.ok () →
    set_nested_value d ts v = Except.ok (d', p) →
    set_nested_value d' ts v = Except.ok (d', v)
    ∧ get_nested_value d' ts = v :=
  fun d ts ct v d' p hval hset =>
    ⟨set_idem ts d v d' p hset (validate_ok_ne_nil ts ct hval),
     set_then_get ts d v d' p (validate_ok_ne_nil ts ct hval) hset⟩

theorem claim_c9_witness :
    validate_update_path [Tok.field ("legend"), Tok.field ("enabled")]
        (some (Node.str ("pie"))) = Except.ok ()
    ∧ set_nested_value (Node.map [("legend", Node.map [("enabled", Node.bool true)])])
        [Tok.field ("legend"), Tok.field ("enabled")] (Node.bool false)
      = Except.ok (Node.map [("legend", Node.map [("enabled", Node.bool false)])], Node.bool true)
    ∧ set_nested_value (Node.map [("legend", Node.map [("enabled", Node.bool false)])])
        [Tok.field ("legend"), Tok.field ("enabled")] (Node.bool false)
      = Except.ok (Node.map [("legend", Node.map [("enabled", Node.bool false)])], Node.bool false)
    ∧ get_nested_value (Node.map [("legend", Node.map [("enabled", Node.bool false)])])
        [Tok.field ("legend"), Tok.field ("enabled")] = Node.bool false :=
  ⟨rfl, rfl,
    (claim_c9_validated_update_idempotent
      (Node.map [("legend", Node.map [("enabled", Node.bool true)])])
      [Tok.field ("legend"), Tok.field ("enabled")]
      (some (Node.str ("pie"))) (Node.bool false) _ _ rfl rfl).1,
    (claim_c9_validated_update_idempotent
      (Node.map [("legend", Node.map [("enabled", Node.bool true)])])
      [Tok.field ("legend"), Tok.field ("enabled")]
      (some (Node.str ("pie"))) (Node.bool false) _ _ rfl rfl).2⟩

/-- Claim C10: frame property of `set_nested_value` — a successful write
only creates or overwrites nodes along the walked prefix chain: every
traversed mapping keeps the values of all sibling keys, every traversed
sequence keeps every element at indices other than the walked one and is
only ever extended (padding appends, the length never shrinks). -/
theorem claim_c10_set_frame :
    ∀ (ts : List Tok) (d v d' p : Node),
    set_nested_value d ts v = Except.ok (d', p) →
    FramePreserved d d' ts :=
  fun ts d v d' p hset => set_frame ts d v d' p hset

theorem claim_c10_witness :
    set_nested_value (Node.map [("a", Node.int 1), ("c", Node.int 2)])
      [Tok.field ("b")] (Node.int 5)
      = Except.ok (Node.map [("a", Node.int 1), ("c", Node.int 2), ("b", Node.int 5)], Node.null)
    ∧ FramePreserved (Node.map [("a", Node.int 1), ("c", Node.int 2)])
        (Node.map [("a", Node.int 1), ("c", Node.int 2), ("b", Node.int 5)])
        [Tok.field ("b")] :=
  ⟨rfl,
    claim_c10_set_frame [Tok.field ("b")]
      (Node.map [("a", Node.int 1), ("c", Node.int 2)]) (Node.int 5) _ _ rfl⟩

end Charts





